import Mathlib

/-!
Verification of the post-scheduling core of the LinkedIn Personal Branding
AI Agent MVP (a single-file Streamlit application, `app.py`).

The app keeps a sqlite table `posts (id, content, scheduled_at, status,
created_at)`, schedules one-shot timers with APScheduler, and parses
backend JSON responses with a guarded `json.loads`.  We embed the store,
the lifecycle operations `save_post` / `execute_post`, the listing query,
and the JSON-parsing UI paths as pure Lean functions, and prove the
specified properties about them.
-/

/-- A row of the sqlite `posts` table. -/
structure Post where
  id : Nat
  content : String
  scheduled_at : String
  status : String
  created_at : String
deriving DecidableEq, Repr

/-- System state: the `posts` table (rows in insertion order), the next
auto-increment row id that sqlite will assign, and the jobs registered
with the APScheduler instance, as (parsed run date, post id) pairs. -/
structure SysState where
  posts : List Post
  nextId : Nat
  jobs : List (Int × Nat)
deriving DecidableEq, Repr

/-- The state at process start: `CREATE TABLE IF NOT EXISTS posts ...` on a
fresh database — no rows, auto-increment ids start at 1, no jobs. -/
def initState : SysState := ⟨[], 1, []⟩

/-- `SELECT content, status FROM posts WHERE id=? ... fetchone()`: the first
row with the given id (ids are unique in reachable states).  Returns the
whole row; `execute_post` only looks at `content` and `status`. -/
def getPost (σ : SysState) (pid : Nat) : Option Post :=
  σ.posts.find? (fun p => p.id == pid)

/-- Embedding of `save_post(content, run_at_iso)` (app.py lines 87-95).
`parse` models the Python standard-library `datetime.fromisoformat`
(external to the repository): `none` means the call raises `ValueError`.
`now` models `datetime.utcnow().isoformat()`.  Order of effects, as in the
source: INSERT the row with status "scheduled" and commit; read
`cur.lastrowid`; parse `run_at_iso` (raising, after the commit, when it is
malformed); register the one-shot job; return the new id.  The second
component is `Except.error ()` when the parse raises, else `Except.ok pid`. -/
def save_post (parse : String → Option Int) (σ : SysState)
    (content run_at_iso now : String) : SysState × Except Unit Nat :=
  let pid := σ.nextId
  let σ1 : SysState :=
    { σ with posts := σ.posts ++ [⟨pid, content, run_at_iso, "scheduled", now⟩],
             nextId := pid + 1 }
  match parse run_at_iso with
  | none => (σ1, Except.error ())
  | some d => ({ σ1 with jobs := σ1.jobs ++ [(d, pid)] }, Except.ok pid)

/-- Embedding of `execute_post(post_id)` (app.py lines 97-106): re-read the
row; if absent, return; if status is already "posted", return; otherwise
perform the publish side effect (`t.sleep(1)` simulation) and
`UPDATE posts SET status='posted' WHERE id=?`.  The Bool records whether
the publish side effect happened. -/
def execute_post (σ : SysState) (pid : Nat) : SysState × Bool :=
  match getPost σ pid with
  | none => (σ, false)
  | some rec =>
    if rec.status = "posted" then (σ, false)
    else
      let upd := fun p => if p.id == pid then { p with status := "posted" } else p
      ({ σ with posts := σ.posts.map upd }, true)

/-- The descending `scheduled_at` order used by the listing query
(`ORDER BY scheduled_at DESC`; sqlite compares TEXT columns as strings). -/
def schedDesc (a b : Post) : Prop := b.scheduled_at ≤ a.scheduled_at

instance : DecidableRel schedDesc := fun a b =>
  inferInstanceAs (Decidable (b.scheduled_at ≤ a.scheduled_at))

/-- Embedding of `pd.read_sql_query("SELECT * FROM posts ORDER BY
scheduled_at DESC", conn)` (app.py line 160): all rows, sorted by
`scheduled_at` descending. -/
def list_posts (σ : SysState) : List Post :=
  List.insertionSort schedDesc σ.posts

/-- JSON values, as returned by the Python `json` module: `json.loads` may
return null, a boolean, a number, a string, an array or an object — not
necessarily an object or array. -/
inductive JVal where
  | null
  | bool (b : Bool)
  | num (n : Int)
  | str (s : String)
  | arr (xs : List JVal)
  | obj (fields : List (String × JVal))

/-- Streamlit display effects emitted by the code paths we model. -/
inductive UIEffect where
  | error (msg : String)
  | text (s : String)
  | json (v : JVal)

/-- Embedding of `safe_json_load(s)` (app.py lines 40-47). `loads` models
the Python standard-library `json.loads` (external to the repository):
`none` means it raises `json.JSONDecodeError`, which is the only exception
the function catches.  On a decode error the function shows an error
banner and the raw text and returns None; otherwise it returns the parsed
value unchanged, of whatever JSON type it is. -/
def safe_json_load (loads : String → Option JVal) (s : String) :
    Option JVal × List UIEffect :=
  match loads s with
  | some v => (some v, [])
  | none =>
    (none,
     [UIEffect.error "⚠️ Failed to parse JSON from Groq API response.",
      UIEffect.text "Raw response:",
      UIEffect.text s])

/-- Embedding of `analyze_profile(profile_text)` (app.py lines 61-75): the
Groq call is external; `backendContent` is the text content of its
response, which is fed to `safe_json_load`. -/
def analyze_profile (loads : String → Option JVal) (backendContent : String) :
    Option JVal × List UIEffect :=
  safe_json_load loads backendContent

/-- Embedding of `generate_posts(pillars, tone, n)` (app.py lines 77-85):
identical parse path on the backend response content. -/
def generate_posts (loads : String → Option JVal) (backendContent : String) :
    Option JVal × List UIEffect :=
  safe_json_load loads backendContent

/-- `isinstance(analysis, dict)` on a JSON value. -/
def isDict : JVal → Bool
  | JVal.obj _ => true
  | _ => false

/-- `isinstance(posts, list)` on a JSON value. -/
def isList : JVal → Bool
  | JVal.arr _ => true
  | _ => false

/-- The "Analyze Profile" button handler (app.py lines 115-123), with the
store threaded through to make explicit that this path never writes to it.
Returns the (unchanged) state, the analysis result, and the display
effects. -/
def analyze_handler (loads : String → Option JVal) (σ : SysState)
    (backendContent : String) : SysState × Option JVal × List UIEffect :=
  let r := analyze_profile loads backendContent
  match r.1 with
  | none =>
    (σ, none,
     r.2 ++ [UIEffect.error "Invalid or no JSON response received for profile analysis."])
  | some v =>
    if isDict v then (σ, some v, r.2 ++ [UIEffect.json v])
    else
      (σ, some v,
       r.2 ++ [UIEffect.error "Invalid or no JSON response received for profile analysis."])

/-- The "Generate Posts" button handler (app.py lines 131-137), with the
store threaded through: this path never writes to it either. -/
def generate_handler (loads : String → Option JVal) (σ : SysState)
    (backendContent : String) : SysState × Option JVal × List UIEffect :=
  let r := generate_posts loads backendContent
  match r.1 with
  | none =>
    (σ, none,
     r.2 ++ [UIEffect.error "Invalid or no JSON response received for post generation."])
  | some v =>
    if isList v then (σ, some v, r.2)
    else
      (σ, some v,
       r.2 ++ [UIEffect.error "Invalid or no JSON response received for post generation."])

/-- Modelled from the spec: `datetime.fromisoformat` (Python standard
library, not part of this repository's sources).  The spec stores
`scheduled_at` as ISO-8601 text; this model accepts the basic
`YYYY-MM-DDTHH:MM:SS` form produced by `datetime.combine(...).isoformat()`
and encodes the instant as an integer; every other string is rejected
(the Python call raises `ValueError`). -/
def isoParse (s : String) : Option Int :=
  let cs := s.toList
  match cs with
  | [y1, y2, y3, y4, d1, m1, m2, d2, dd1, dd2, t1, h1, h2, c1, n1, n2, c2, s1, s2] =>
    if y1.isDigit && y2.isDigit && y3.isDigit && y4.isDigit &&
       d1 = '-' && m1.isDigit && m2.isDigit && d2 = '-' &&
       dd1.isDigit && dd2.isDigit && t1 = 'T' &&
       h1.isDigit && h2.isDigit && c1 = ':' && n1.isDigit && n2.isDigit &&
       c2 = ':' && s1.isDigit && s2.isDigit then
      let dv : Char → Int := fun c => Int.ofNat (c.toNat - 48)
      let year := 1000 * dv y1 + 100 * dv y2 + 10 * dv y3 + dv y4
      let month := 10 * dv m1 + dv m2
      let day := 10 * dv dd1 + dv dd2
      let hour := 10 * dv h1 + dv h2
      let minute := 10 * dv n1 + dv n2
      let second := 10 * dv s1 + dv s2
      if 1 ≤ month && month ≤ 12 && 1 ≤ day && day ≤ 31 &&
         hour ≤ 23 && minute ≤ 59 && second ≤ 59 then
        some (((((year * 12 + month) * 31 + day) * 24 + hour) * 60 + minute) * 60 + second)
      else none
    else none
  | _ => none

/-- One state-changing operation of the program: a `save_post` call (from
the Schedule button) or an `execute_post` call (a fired timer callback;
the pid is unconstrained, which over-approximates the pids APScheduler can
pass).  All remaining operations of the program only read the store. -/
inductive Step (parse : String → Option Int) : SysState → SysState → Prop where
  | save (σ : SysState) (content run_at_iso now : String) :
      Step parse σ (save_post parse σ content run_at_iso now).1
  | fire (σ : SysState) (pid : Nat) :
      Step parse σ (execute_post σ pid).1

/-- States reachable from process start by the program's operations. -/
inductive Reachable (parse : String → Option Int) : SysState → Prop where
  | init : Reachable parse initState
  | step {σ σ' : SysState} :
      Reachable parse σ → Step parse σ σ' → Reachable parse σ'


/-! ### Helper lemmas -/

/-- Whatever the parse outcome, `save_post` leaves the store with the new
"scheduled" row appended and the id counter bumped. -/
theorem save_post_state (parse : String → Option Int) (σ : SysState)
    (content run_at_iso now : String) :
    (save_post parse σ content run_at_iso now).1.posts =
      σ.posts ++ [⟨σ.nextId, content, run_at_iso, "scheduled", now⟩] ∧
    (save_post parse σ content run_at_iso now).1.nextId = σ.nextId + 1 := by
  unfold save_post
  cases parse run_at_iso <;> exact ⟨rfl, rfl⟩

/-- `execute_post` keeps the id counter and the job list, and either leaves
the rows alone or maps the by-id status update over them. -/
theorem execute_post_shape (σ : SysState) (pid : Nat) :
    (execute_post σ pid).1.nextId = σ.nextId ∧
    (execute_post σ pid).1.jobs = σ.jobs ∧
    ((execute_post σ pid).1.posts = σ.posts ∨
     (execute_post σ pid).1.posts =
       σ.posts.map (fun p => if p.id == pid then { p with status := "posted" } else p)) := by
  unfold execute_post
  split
  · exact ⟨rfl, rfl, Or.inl rfl⟩
  · split
    · exact ⟨rfl, rfl, Or.inl rfl⟩
    · exact ⟨rfl, rfl, Or.inr rfl⟩

/-- `find?` by id commutes with mapping an id-preserving function. -/
theorem find_map_keep_id (l : List Post) (pid : Nat) (f : Post → Post)
    (hf : ∀ q, (f q).id = q.id) :
    (l.map f).find? (fun p => p.id == pid) =
      (l.find? (fun p => p.id == pid)).map f := by
  induction l with
  | nil => simp
  | cons a t ih =>
    simp only [List.map_cons, List.find?_cons]
    rw [hf a]
    cases h : (a.id == pid) with
    | true => simp
    | false => simpa using ih

/-- `find?` skips a prefix on which it fails. -/
theorem find_append_none {α : Type} (p : α → Bool) (l₁ l₂ : List α)
    (h : l₁.find? p = none) : (l₁ ++ l₂).find? p = l₂.find? p := by
  induction l₁ with
  | nil => simp
  | cons a t ih =>
    simp only [List.cons_append, List.find?_cons] at h ⊢
    cases hp : p a with
    | true => rw [hp] at h; simp at h
    | false =>
      rw [hp] at h
      exact ih h

/-- The update performed by `execute_post` preserves ids. -/
theorem upd_keeps_id (pid : Nat) (q : Post) :
    ((fun p => if p.id == pid then { p with status := "posted" } else p) q).id = q.id := by
  by_cases h : (q.id == pid) <;> simp [h]

/-- All row ids in a reachable state are below the auto-increment counter. -/
theorem ids_lt_nextId {parse : String → Option Int} {σ : SysState}
    (hr : Reachable parse σ) : ∀ p ∈ σ.posts, p.id < σ.nextId := by
  induction hr with
  | init => intro p hp; simp [initState] at hp
  | step hr hs ih =>
    rename_i σ0 σ1
    cases hs with
    | save content run_at_iso now =>
      intro p hp
      have h1 := save_post_state parse σ0 content run_at_iso now
      rw [h1.1] at hp
      rw [h1.2]
      rcases List.mem_append.mp hp with hp | hp
      · exact Nat.lt_succ_of_lt (ih p hp)
      · rw [List.mem_singleton.mp hp]
        exact Nat.lt_succ_self _
    | fire pid =>
      intro p hp
      have h1 := execute_post_shape σ0 pid
      rw [h1.1]
      rcases h1.2.2 with h2 | h2 <;> rw [h2] at hp
      · exact ih p hp
      · rcases List.mem_map.mp hp with ⟨q, hq, hfq⟩
        rw [← hfq, upd_keeps_id]
        exact ih q hq

/-- Every row in a reachable state has status "scheduled" or "posted". -/
theorem status_wf {parse : String → Option Int} {σ : SysState}
    (hr : Reachable parse σ) :
    ∀ p ∈ σ.posts, p.status = "scheduled" ∨ p.status = "posted" := by
  induction hr with
  | init => intro p hp; simp [initState] at hp
  | step hr hs ih =>
    rename_i σ0 σ1
    cases hs with
    | save content run_at_iso now =>
      intro p hp
      rw [(save_post_state parse σ0 content run_at_iso now).1] at hp
      rcases List.mem_append.mp hp with hp | hp
      · exact ih p hp
      · rw [List.mem_singleton.mp hp]
        exact Or.inl rfl
    | fire pid =>
      intro p hp
      rcases (execute_post_shape σ0 pid).2.2 with h2 | h2 <;> rw [h2] at hp
      · exact ih p hp
      · rcases List.mem_map.mp hp with ⟨q, hq, hfq⟩
        by_cases hid : (q.id == pid)
        · rw [← hfq]
          simp [hid]
        · rw [← hfq]
          simp [hid]
          exact ih q hq

/-! ### Concrete model decoders, used to instantiate the backend-dependent
theorems on concrete inputs -/

/-- A model backend decoder that rejects every string (pure decode failure). -/
def loadsNone : String → Option JVal := fun _ => none

/-- A model backend decoder returning a bare number for every string:
`json.loads` can return any JSON type, not just objects or arrays. -/
def loadsNum : String → Option JVal := fun _ => some (JVal.num 3)

/-! ### Claim theorems -/

/-- Claim C4: for an id with no matching row, `execute_post` returns with
no effect: it raises no fault (it is a total function) and leaves the
store state unchanged — not-found is "nothing to do", not an error. -/
theorem execute_post_unknown_id (σ : SysState) (pid : Nat)
    (h : getPost σ pid = none) : execute_post σ pid = (σ, false) := by
  unfold execute_post
  rw [h]

theorem execute_post_unknown_id_witness :
    getPost initState 5 = none ∧ execute_post initState 5 = (initState, false) :=
  ⟨rfl, execute_post_unknown_id initState 5 rfl⟩

/-- Claim C10: `safe_json_load` is total: it returns the decoded value (of
any JSON type) when decoding succeeds, with no error display, and returns
None after displaying the raw text when decoding fails; the decode failure
is the only failure channel it handles. -/
theorem safe_json_load_total (loads : String → Option JVal) (s : String) :
    (safe_json_load loads s).1 = loads s ∧
    (loads s = none →
      (safe_json_load loads s).2 =
        [UIEffect.error "⚠️ Failed to parse JSON from Groq API response.",
         UIEffect.text "Raw response:", UIEffect.text s]) ∧
    (∀ v, loads s = some v → (safe_json_load loads s).2 = []) := by
  cases h : loads s with
  | none => simp [safe_json_load, h]
  | some v => simp [safe_json_load, h]

theorem safe_json_load_total_witness :
    (safe_json_load loadsNone "oops").1 = loadsNone "oops" ∧
    (safe_json_load loadsNone "oops").2 =
      [UIEffect.error "⚠️ Failed to parse JSON from Groq API response.",
       UIEffect.text "Raw response:", UIEffect.text "oops"] ∧
    (safe_json_load loadsNum "drafts").2 = [] :=
  ⟨(safe_json_load_total loadsNone "oops").1,
   (safe_json_load_total loadsNone "oops").2.1 rfl,
   (safe_json_load_total loadsNum "drafts").2.2 (JVal.num 3) rfl⟩

/-- Claim C8: on a backend response that is not valid JSON, both the
profile-analysis and the post-generation parse paths return None after
displaying the raw text, raise nothing, and write no post record: the
store component of the result is the unchanged input store. -/
theorem malformed_json_no_write (loads : String → Option JVal) (σ : SysState)
    (resp : String) (h : loads resp = none) :
    analyze_handler loads σ resp =
      (σ, none,
       [UIEffect.error "⚠️ Failed to parse JSON from Groq API response.",
        UIEffect.text "Raw response:", UIEffect.text resp,
        UIEffect.error "Invalid or no JSON response received for profile analysis."]) ∧
    generate_handler loads σ resp =
      (σ, none,
       [UIEffect.error "⚠️ Failed to parse JSON from Groq API response.",
        UIEffect.text "Raw response:", UIEffect.text resp,
        UIEffect.error "Invalid or no JSON response received for post generation."]) := by
  constructor <;>
    simp [analyze_handler, generate_handler, analyze_profile, generate_posts,
          safe_json_load, h]

theorem malformed_json_no_write_witness :
    loadsNone "not json" = none ∧
    analyze_handler loadsNone initState "not json" =
      (initState, none,
       [UIEffect.error "⚠️ Failed to parse JSON from Groq API response.",
        UIEffect.text "Raw response:", UIEffect.text "not json",
        UIEffect.error "Invalid or no JSON response received for profile analysis."]) ∧
    generate_handler loadsNone initState "not json" =
      (initState, none,
       [UIEffect.error "⚠️ Failed to parse JSON from Groq API response.",
        UIEffect.text "Raw response:", UIEffect.text "not json",
        UIEffect.error "Invalid or no JSON response received for post generation."]) :=
  ⟨rfl,
   (malformed_json_no_write loadsNone initState "not json" rfl).1,
   (malformed_json_no_write loadsNone initState "not json" rfl).2⟩

/-- Claim C9: on a malformed `run_at_iso`, `save_post` is not atomic: it
first durably commits the new "scheduled" row, then raises from the
timestamp parse before registering any job and before returning an id —
the returned state holds the new row, the job list is unchanged, and the
call ends in the error outcome. -/
theorem save_post_malformed_partial (parse : String → Option Int) (σ : SysState)
    (content run_at_iso now : String) (h : parse run_at_iso = none) :
    save_post parse σ content run_at_iso now =
      ({ posts := σ.posts ++ [⟨σ.nextId, content, run_at_iso, "scheduled", now⟩],
         nextId := σ.nextId + 1, jobs := σ.jobs }, Except.error ()) := by
  unfold save_post
  rw [h]

theorem save_post_malformed_partial_witness :
    isoParse "tomorrow at ten" = none ∧
    save_post isoParse initState "Hello" "tomorrow at ten" "2025-01-02T03:04:05" =
      ({ posts := [⟨1, "Hello", "tomorrow at ten", "scheduled", "2025-01-02T03:04:05"⟩],
         nextId := 2, jobs := [] }, Except.error ()) :=
  ⟨rfl,
   save_post_malformed_partial isoParse initState "Hello" "tomorrow at ten"
     "2025-01-02T03:04:05" rfl⟩

instance : IsTotal Post schedDesc :=
  ⟨fun a b => le_total b.scheduled_at a.scheduled_at⟩

instance : IsTrans Post schedDesc :=
  ⟨fun _ _ _ hab hbc => le_trans hbc hab⟩

/-- Claim C7: the listing returns all rows of the store (a permutation of
its contents — no pagination) ordered by `scheduled_at` descending. -/
theorem list_posts_spec (σ : SysState) :
    (list_posts σ).Perm σ.posts ∧ List.Pairwise schedDesc (list_posts σ) :=
  ⟨List.perm_insertionSort schedDesc σ.posts,
   List.sorted_insertionSort schedDesc σ.posts⟩

/-- After one `execute_post` on an existing row, re-reading that row shows
status "posted" (a row already "posted" is left untouched). -/
theorem getPost_after_execute (σ : SysState) (pid : Nat) (p : Post)
    (h : getPost σ pid = some p) :
    ∃ q, getPost (execute_post σ pid).1 pid = some q ∧ q.status = "posted" := by
  have hfind : σ.posts.find? (fun r => r.id == pid) = some p := h
  have hp : (p.id == pid) = true := by
    have hfs := List.find?_some hfind
    simpa using hfs
  simp only [execute_post, h]
  by_cases hs : p.status = "posted"
  · simp only [if_pos hs]
    exact ⟨p, h, hs⟩
  · simp only [if_neg hs]
    refine ⟨{ p with status := "posted" }, ?_, rfl⟩
    show (σ.posts.map
        (fun q => if q.id == pid then { q with status := "posted" } else q)).find?
        (fun r => r.id == pid) = some { p with status := "posted" }
    rw [find_map_keep_id σ.posts pid _ (upd_keeps_id pid), hfind]
    have hpe : p.id = pid := beq_iff_eq.mp hp
    simp [hp, hpe]

/-- `execute_post` is a no-op when the row is already "posted". -/
theorem execute_post_already_posted (σ : SysState) (pid : Nat) (q : Post)
    (hq : getPost σ pid = some q) (hs : q.status = "posted") :
    execute_post σ pid = (σ, false) := by
  simp only [execute_post, hq, if_pos hs]

/-- Claim C2: for an id with a matching row, running `execute_post` twice in
sequence (the second call after the first returns) leaves that row with
status "posted" after both calls, and the publish side effect happens at
most once: the second call is a no-op on seeing status "posted". -/
theorem execute_twice_idempotent (σ : SysState) (pid : Nat)
    (h : (getPost σ pid).isSome) :
    (∃ q, getPost (execute_post (execute_post σ pid).1 pid).1 pid = some q ∧
       q.status = "posted") ∧
    (execute_post (execute_post σ pid).1 pid).2 = false ∧
    (if (execute_post σ pid).2 then 1 else 0) +
      (if (execute_post (execute_post σ pid).1 pid).2 then 1 else 0) ≤ 1 := by
  obtain ⟨p, hp⟩ := Option.isSome_iff_exists.mp h
  obtain ⟨q, hq, hqs⟩ := getPost_after_execute σ pid p hp
  have h2 := execute_post_already_posted (execute_post σ pid).1 pid q hq hqs
  refine ⟨⟨q, ?_, hqs⟩, ?_, ?_⟩
  · rw [h2]
    exact hq
  · rw [h2]
  · rw [h2]
    cases hb : (execute_post σ pid).2 <;> simp

/-- A row of the running example: post 1, still scheduled. -/
def postExample : Post :=
  ⟨1, "Hello", "2026-01-01T10:00:00", "scheduled", "2025-12-31T00:00:00"⟩

/-- A store holding the one scheduled example row, as left by a `save_post`
of that row from the initial state. -/
def stateExample : SysState := ⟨[postExample], 2, [(65120061600, 1)]⟩

theorem execute_twice_idempotent_witness :
    (getPost stateExample 1).isSome = true ∧
    ((∃ q, getPost (execute_post (execute_post stateExample 1).1 1).1 1 = some q ∧
        q.status = "posted") ∧
     (execute_post (execute_post stateExample 1).1 1).2 = false ∧
     (if (execute_post stateExample 1).2 then 1 else 0) +
       (if (execute_post (execute_post stateExample 1).1 1).2 then 1 else 0) ≤ 1) :=
  ⟨rfl, execute_twice_idempotent stateExample 1 rfl⟩

/-- Per-row frame condition of `execute_post`: id, content, schedule and
creation timestamps are preserved; only the status of the rows carrying the
executed id may change, and only to "posted". -/
def sameFrame (pid : Nat) (p q : Post) : Prop :=
  q.id = p.id ∧ q.content = p.content ∧ q.scheduled_at = p.scheduled_at ∧
  q.created_at = p.created_at ∧
  (q.status = p.status ∨ (p.id = pid ∧ q.status = "posted"))

/-- Claim C6: `execute_post` modifies at most the `status` field of the row
with the given id: row count and order, every other field of every row,
every row with a different id, the id counter and the job list are all
unchanged by the call. -/
theorem execute_post_frame (σ : SysState) (pid : Nat) :
    (execute_post σ pid).1.nextId = σ.nextId ∧
    (execute_post σ pid).1.jobs = σ.jobs ∧
    List.Forall₂ (sameFrame pid) σ.posts (execute_post σ pid).1.posts := by
  obtain ⟨h1, h2, h3⟩ := execute_post_shape σ pid
  refine ⟨h1, h2, ?_⟩
  rcases h3 with h | h <;> rw [h]
  · rw [List.forall₂_same]
    intro x _
    exact ⟨rfl, rfl, rfl, rfl, Or.inl rfl⟩
  · rw [List.forall₂_map_right_iff, List.forall₂_same]
    intro x _
    by_cases hid : (x.id == pid)
    · have hxe : x.id = pid := beq_iff_eq.mp hid
      refine ⟨?_, ?_, ?_, ?_, Or.inr ⟨hxe, ?_⟩⟩ <;> simp [hid]
    · refine ⟨?_, ?_, ?_, ?_, Or.inl ?_⟩ <;> simp [hid]

/-- Claim C1: across every state-changing operation of the program from a
reachable state, each existing row persists (no operation deletes a post)
with id, content, scheduled_at and created_at intact, and its status is
either unchanged or steps "scheduled" → "posted" (the only status write);
every row that is new in the successor state was inserted with status
"scheduled". -/
theorem post_status_machine (parse : String → Option Int) {σ σ' : SysState}
    (hr : Reachable parse σ) (hs : Step parse σ σ') :
    (∀ p ∈ σ.posts, ∃ q ∈ σ'.posts,
       q.id = p.id ∧ q.content = p.content ∧ q.scheduled_at = p.scheduled_at ∧
       q.created_at = p.created_at ∧
       (q.status = p.status ∨ (p.status = "scheduled" ∧ q.status = "posted"))) ∧
    (∀ q ∈ σ'.posts, (∃ p ∈ σ.posts, p.id = q.id) ∨ q.status = "scheduled") := by
  cases hs with
  | save content run_at_iso now =>
    have h1 := (save_post_state parse σ content run_at_iso now).1
    constructor
    · intro p hp
      refine ⟨p, ?_, rfl, rfl, rfl, rfl, Or.inl rfl⟩
      rw [h1]
      exact List.mem_append_left _ hp
    · intro q hq
      rw [h1] at hq
      rcases List.mem_append.mp hq with hq | hq
      · exact Or.inl ⟨q, hq, rfl⟩
      · rw [List.mem_singleton.mp hq]
        exact Or.inr rfl
  | fire pid =>
    rcases (execute_post_shape σ pid).2.2 with h2 | h2 <;> rw [h2]
    · constructor
      · intro p hp
        exact ⟨p, hp, rfl, rfl, rfl, rfl, Or.inl rfl⟩
      · intro q hq
        exact Or.inl ⟨q, hq, rfl⟩
    · constructor
      · intro p hp
        have hmem := List.mem_map_of_mem
          (fun r => if r.id == pid then { r with status := "posted" } else r) hp
        by_cases hid : (p.id == pid)
        · rcases status_wf hr p hp with hsch | hpost
          · refine ⟨{ p with status := "posted" }, ?_, rfl, rfl, rfl, rfl,
              Or.inr ⟨hsch, rfl⟩⟩
            simpa [hid] using hmem
          · refine ⟨{ p with status := "posted" }, ?_, rfl, rfl, rfl, rfl,
              Or.inl hpost.symm⟩
            simpa [hid] using hmem
        · refine ⟨p, ?_, rfl, rfl, rfl, rfl, Or.inl rfl⟩
          simpa [hid] using hmem
      · intro q hq
        rcases List.mem_map.mp hq with ⟨p, hp, hfq⟩
        refine Or.inl ⟨p, hp, ?_⟩
        rw [← hfq, upd_keeps_id]

theorem post_status_machine_witness :
    (∀ p ∈ stateExample.posts, ∃ q ∈ (execute_post stateExample 1).1.posts,
       q.id = p.id ∧ q.content = p.content ∧ q.scheduled_at = p.scheduled_at ∧
       q.created_at = p.created_at ∧
       (q.status = p.status ∨ (p.status = "scheduled" ∧ q.status = "posted"))) ∧
    (∀ q ∈ (execute_post stateExample 1).1.posts,
       (∃ p ∈ stateExample.posts, p.id = q.id) ∨ q.status = "scheduled") :=
  post_status_machine isoParse
    (show Reachable isoParse stateExample from
      Reachable.step Reachable.init
        (Step.save initState "Hello" "2026-01-01T10:00:00" "2025-12-31T00:00:00"))
    (Step.fire stateExample 1)

/-- Claim C3 counterexample: with a `run_at` string that is not valid
ISO-8601, `save_post` does not succeed: the call ends in the raised-error
outcome instead of returning an id. -/
theorem save_post_not_always_succeeds :
    (save_post isoParse initState "Hello" "someday soon" "2025-01-02T03:04:05").2 =
      Except.error () := rfl

/-- Claim C3 (amended: succeeds for every `run_at` whose ISO-8601 parse
succeeds, rather than for every string): from any reachable state,
`save_post` on a parseable `run_at` appends the new row with status
"scheduled" and `created_at = now`, registers the job and returns the
fresh id, which is strictly greater than every id already in the store
(hence than every previously returned id); reading that id back
immediately reports status "scheduled" with the given content and
`scheduled_at`. -/
theorem save_post_valid_spec (parse : String → Option Int) (σ : SysState)
    (content run_at_iso now : String) (d : Int)
    (hr : Reachable parse σ) (hp : parse run_at_iso = some d) :
    save_post parse σ content run_at_iso now =
      ({ posts := σ.posts ++ [⟨σ.nextId, content, run_at_iso, "scheduled", now⟩],
         nextId := σ.nextId + 1, jobs := σ.jobs ++ [(d, σ.nextId)] },
       Except.ok σ.nextId) ∧
    (∀ p ∈ σ.posts, p.id < σ.nextId) ∧
    getPost (save_post parse σ content run_at_iso now).1 σ.nextId =
      some ⟨σ.nextId, content, run_at_iso, "scheduled", now⟩ := by
  have hids := ids_lt_nextId hr
  have heq : save_post parse σ content run_at_iso now =
      ({ posts := σ.posts ++ [⟨σ.nextId, content, run_at_iso, "scheduled", now⟩],
         nextId := σ.nextId + 1, jobs := σ.jobs ++ [(d, σ.nextId)] },
       Except.ok σ.nextId) := by
    unfold save_post
    rw [hp]
  refine ⟨heq, hids, ?_⟩
  rw [heq]
  simp only [getPost]
  rw [find_append_none]
  · simp
  · rw [List.find?_eq_none]
    intro x hx
    simp only [beq_iff_eq]
    exact Nat.ne_of_lt (hids x hx)

theorem save_post_valid_spec_witness :
    isoParse "2026-01-01T10:00:00" = some 65120061600 ∧
    (save_post isoParse initState "Hello" "2026-01-01T10:00:00" "2025-12-31T00:00:00" =
       ({ posts := [⟨1, "Hello", "2026-01-01T10:00:00", "scheduled", "2025-12-31T00:00:00"⟩],
          nextId := 2, jobs := [(65120061600, 1)] }, Except.ok 1) ∧
     (∀ p ∈ initState.posts, p.id < initState.nextId) ∧
     getPost (save_post isoParse initState "Hello" "2026-01-01T10:00:00"
         "2025-12-31T00:00:00").1 1 =
       some ⟨1, "Hello", "2026-01-01T10:00:00", "scheduled", "2025-12-31T00:00:00"⟩) :=
  ⟨rfl,
   save_post_valid_spec isoParse initState "Hello" "2026-01-01T10:00:00"
     "2025-12-31T00:00:00" 65120061600 Reachable.init rfl⟩
